import Mathlib

/-!
Verification of the openssl connector layer of `future-aio`
(`src/openssl/connector.rs`), together with a model of the handshake
driver, the sync-over-async shim and the established-session stream that
the connector delegates to.  The connector code is embedded directly from
the source; the delegated pieces (`HandshakeFuture`, `AsyncToSyncWrapper`,
`TlsStream` read/write, `crate::net`) are not part of the visible slice
and are modelled from the specification, as marked on each definition.
-/

/-- A byte of application data (the payload values are irrelevant; `Nat`
suffices). -/
abbrev Byte := Nat

/-- Modelled from the spec (§4.1, §9): one readiness response of the
asynchronous transport to a single shim operation: either it is ready and
accepts/produces `k` bytes, or it is not ready yet, or it fails fatally
(connection reset, broken pipe, ...) with an error `code`. -/
inductive IoStep where
  | ready (k : Nat)
  | notReady
  | fatal (code : Nat)
deriving DecidableEq, Repr

/-- Modelled from the spec (§4.1): the `AsyncToSyncWrapper` shim.  It owns
the asynchronous transport, modelled by the `script` of readiness
responses the transport will give to successive shim operations, and we
track in `received` every byte the transport has actually accepted, so
that loss/duplication can be stated.  -/
structure AsyncToSyncWrapper where
  script : List IoStep
  received : List Byte
deriving DecidableEq, Repr

/-- Modelled from the spec (§4.1): the tri-state outcome the shim reports
to the synchronous library: `ok n` (n bytes transferred), the library's
own would-block signal, or a fatal I/O error. -/
inductive SyncIo where
  | ok (n : Nat)
  | wouldBlock
  | ioError (code : Nat)
deriving DecidableEq, Repr

/-- Modelled from the spec (§4.1): one generic shim I/O operation (as the
handshake performs): consume the transport's next readiness response and
translate it: ready ↦ `ok`, not-ready ↦ would-block, fatal ↦ I/O error.
An exhausted script means the transport is never ready again. -/
def AsyncToSyncWrapper.op : AsyncToSyncWrapper → SyncIo × AsyncToSyncWrapper
  | ⟨[], recv⟩ => (.wouldBlock, ⟨[], recv⟩)
  | ⟨.ready k :: rest, recv⟩ => (.ok k, ⟨rest, recv⟩)
  | ⟨.notReady :: rest, recv⟩ => (.wouldBlock, ⟨rest, recv⟩)
  | ⟨.fatal c :: rest, recv⟩ => (.ioError c, ⟨rest, recv⟩)

/-- Modelled from the spec (§4.1): the shim's synchronous `write`.  When
the transport is ready to take `k` bytes it accepts the first
`min k buf.length` bytes of the offered buffer and exactly that count is
reported — never full acceptance speculatively. -/
def AsyncToSyncWrapper.write : AsyncToSyncWrapper → List Byte → SyncIo × AsyncToSyncWrapper
  | ⟨[], recv⟩, _ => (.wouldBlock, ⟨[], recv⟩)
  | ⟨.ready k :: rest, recv⟩, buf =>
      (.ok (min k buf.length), ⟨rest, recv ++ buf.take (min k buf.length)⟩)
  | ⟨.notReady :: rest, recv⟩, _ => (.wouldBlock, ⟨rest, recv⟩)
  | ⟨.fatal c :: rest, recv⟩, _ => (.ioError c, ⟨rest, recv⟩)

/-- The established cryptographic session.  It records the target identity
the handshake was performed against and whether hostname verification was
applied to the session configuration. -/
structure Session where
  targetDomain : String
  verifiedHostname : Bool
deriving DecidableEq, Repr

/-- The crate's TLS error vocabulary (spec §6): handshake failure,
transport I/O failure, and the would-block signal that is for internal
use only. -/
inductive TlsError where
  | handshake (code : Nat)
  | io (code : Nat)
  | wouldBlock
deriving DecidableEq, Repr

/-- Is this error the internal would-block signal? -/
def TlsError.isWouldBlock : TlsError → Bool
  | .wouldBlock => true
  | _ => false

/-- The generic I/O-style error callers receive (`std::io::Error`): either
a raw OS error or a wrapped TLS error. -/
inductive IoError where
  | os (code : Nat)
  | tls (e : TlsError)
deriving DecidableEq, Repr

/-- Modelled from the spec (§6): `into_io_error` converts the crate's TLS
error into the generic I/O-style error vocabulary. -/
def TlsError.into_io_error (e : TlsError) : IoError := .tls e

/-- Does this I/O-style error carry the internal would-block signal? -/
def IoError.isWouldBlock : IoError → Bool
  | .os _ => false
  | .tls e => e.isWouldBlock

/-- Modelled from the spec (§4.2, §9): the opaque retained continuation of
a suspended handshake (openssl's mid-handshake stream): the target
identity, the verification flag and the remaining interaction rounds are
retained verbatim across the suspension. -/
structure MidHandshake where
  domain : String
  verifyHostname : Bool
  roundsLeft : Nat
deriving DecidableEq, Repr

/-- Modelled from the spec (§1): outcome of one synchronous handshake
invocation: an established session, a would-block suspension carrying the
retained continuation, or a fatal error. -/
inductive HsOutcome where
  | ok (s : Session)
  | wouldBlock (mid : MidHandshake)
  | fatal (code : Nat)
deriving DecidableEq, Repr

/-- Modelled from the spec (§1, §4.2): the synchronous handshake
computation of the cryptographic library, driven through the shim.  A
handshake for `domain` with hostname-verification flag `vh` needs some
number of shim I/O rounds; each round performs one shim operation.  A
would-block from the shim suspends the computation, retaining exactly the
rounds still to go; a fatal shim error fails it; once no rounds remain the
session is established for `domain` with flag `vh`. -/
def hsRun (domain : String) (vh : Bool) : Nat → AsyncToSyncWrapper → HsOutcome × AsyncToSyncWrapper
  | 0, t => (.ok ⟨domain, vh⟩, t)
  | r + 1, t =>
    match t.op with
    | (.ok _, t') => hsRun domain vh r t'
    | (.wouldBlock, t') => (.wouldBlock ⟨domain, vh, r + 1⟩, t')
    | (.ioError c, t') => (.fatal c, t')

/-- The opaque openssl connector internals (`ssl::SslConnector`): all that
matters to this layer is the handshake cost it induces, kept abstract as
`rounds`. -/
structure SslConnector where
  rounds : Nat
deriving DecidableEq, Repr

/-- openssl's per-connection configuration (`ssl::ConnectConfiguration`):
the opaque handshake cost plus the hostname-verification flag. -/
structure ConnectConfiguration where
  rounds : Nat
  verifyHostname : Bool
deriving DecidableEq, Repr

/-- `SslConnector::configure()`: fresh per-connection configuration;
openssl verifies hostnames unless told otherwise. -/
def SslConnector.configure (c : SslConnector) : ConnectConfiguration :=
  ⟨c.rounds, true⟩

/-- `ConnectConfiguration::verify_hostname(b)`: set the flag. -/
def ConnectConfiguration.verify_hostname (cc : ConnectConfiguration) (b : Bool) :
    ConnectConfiguration :=
  { cc with verifyHostname := b }

/-- The synchronous handshake entry point
`client_configuration.connect(domain, stream)` (the closure built at
`connector.rs:44`): invoke the synchronous handshake computation from its
start. -/
def ConnectConfiguration.connect (cc : ConnectConfiguration) (domain : String)
    (t : AsyncToSyncWrapper) : HsOutcome × AsyncToSyncWrapper :=
  hsRun domain cc.verifyHostname cc.rounds t

/-- Modelled from the spec (§4.2): the handshake driver's state:
`Initial` (entry point not yet invoked, as built at `connector.rs:43`),
`MidHandshake` (suspended, holding the retained continuation), `Done`
(terminal).  -/
inductive HandshakeFuture where
  | Initial (cc : ConnectConfiguration) (domain : String)
  | MidHandshake (mid : MidHandshake)
  | Done
deriving DecidableEq, Repr

/-- Is the driver still in its initial state (entry point not yet
invoked)? -/
def HandshakeFuture.isInitial : HandshakeFuture → Bool
  | .Initial _ _ => true
  | _ => false

/-- The asynchronous poll outcome: still suspended, or ready with a
value. -/
inductive Poll (α : Type) where
  | pending
  | ready (v : α)
deriving DecidableEq, Repr

/-- Result of polling the handshake driver once (or several times):
the poll outcome, the successor driver state, the evolved shim, and how
many times the handshake entry point was invoked. -/
structure PollResult where
  poll : Poll (Except TlsError Session)
  next : HandshakeFuture
  stream : AsyncToSyncWrapper
  entryCalls : Nat

/-- Modelled from the spec (§4.2): one poll of the handshake driver.  From
`Initial` it invokes the synchronous handshake entry point exactly once;
from `MidHandshake` it resumes the retained continuation (never the entry
point).  Success completes the future, would-block keeps it suspended,
any fatal error fails it.  Polling a finished future is unsupported and
modelled as a handshake error. -/
def pollOnce : HandshakeFuture → AsyncToSyncWrapper → PollResult
  | .Initial cc domain, t =>
    match cc.connect domain t with
    | (.ok s, t') => ⟨.ready (.ok s), .Done, t', 1⟩
    | (.wouldBlock mid, t') => ⟨.pending, .MidHandshake mid, t', 1⟩
    | (.fatal c, t') => ⟨.ready (.error (.io c)), .Done, t', 1⟩
  | .MidHandshake mid, t =>
    match hsRun mid.domain mid.verifyHostname mid.roundsLeft t with
    | (.ok s, t') => ⟨.ready (.ok s), .Done, t', 0⟩
    | (.wouldBlock m2, t') => ⟨.pending, .MidHandshake m2, t', 0⟩
    | (.fatal c, t') => ⟨.ready (.error (.io c)), .Done, t', 0⟩
  | .Done, t => ⟨.ready (.error (.handshake 0)), .Done, t, 0⟩

/-- Modelled from the spec (§5): the cooperative scheduler driving the
handshake future: poll, and while the outcome is pending (the shim
reported not-ready) resume the future once the transport advances.
`fuel` bounds the number of polls; entry-point invocations are summed. -/
def drive : Nat → HandshakeFuture → AsyncToSyncWrapper → PollResult
  | 0, f, t => ⟨.pending, f, t, 0⟩
  | fuel + 1, f, t =>
    match pollOnce f t with
    | ⟨.ready v, f', t', k⟩ => ⟨.ready v, f', t', k⟩
    | ⟨.pending, f', t', k⟩ =>
      let r2 := drive fuel f' t'
      ⟨r2.poll, r2.next, r2.stream, k + r2.entryCalls⟩

/-- A TCP stream (`crate::net::TcpStream`, not in the visible slice):
the raw OS file descriptor plus the asynchronous transport it drives,
represented by its shim-side state. -/
structure TcpStream where
  fd : Int
  wrapper : AsyncToSyncWrapper
deriving DecidableEq, Repr

/-- `AsRawFd::as_raw_fd`: the raw descriptor of the transport. -/
def TcpStream.as_raw_fd (s : TcpStream) : Int := s.fd

/-- Modelled from the spec (§6): the network environment behind
`TcpStream::connect(addr)`: for each address, either a fresh connected
transport or a raw OS error code. -/
abbrev Net := String → Except Nat TcpStream

/-- The established TLS stream (`TlsStream<TcpStream>`): the completed
session together with the transport it wraps. -/
structure TlsStream where
  session : Session
  inner : TcpStream
deriving DecidableEq, Repr

/-- `TlsConnector` (connector.rs:20-24): the openssl connector plus the
hostname-verification flag. -/
structure TlsConnector where
  inner : SslConnector
  verify_hostname : Bool
deriving DecidableEq, Repr

/-- `TlsConnectorBuilder` (connector.rs:51-54). -/
structure TlsConnectorBuilder where
  inner : SslConnector
  verify_hostname : Bool
deriving DecidableEq, Repr

/-- `TlsConnector::builder()` (connector.rs:27-33): build the openssl
connector builder (opaque internals, modelled as succeeding with an
opaque handshake cost) and enable hostname verification. -/
def TlsConnector.builder (sslRounds : Nat) : Except TlsError TlsConnectorBuilder :=
  .ok { inner := ⟨sslRounds⟩, verify_hostname := true }

/-- `TlsConnectorBuilder::with_hostname_vertification_disabled`
(connector.rs:57-60): clear the flag. -/
def TlsConnectorBuilder.with_hostname_vertification_disabled
    (b : TlsConnectorBuilder) : Except TlsError TlsConnectorBuilder :=
  .ok { b with verify_hostname := false }

/-- `TlsConnectorBuilder::build` (connector.rs:92-97): the flag is carried
over verbatim. -/
def TlsConnectorBuilder.build (b : TlsConnectorBuilder) : TlsConnector :=
  { inner := b.inner, verify_hostname := b.verify_hostname }

/-- `TlsConnector::connect` (connector.rs:35-48): configure the session
(applying `self.verify_hostname`), then await
`HandshakeFuture::Initial(closure, AsyncToSyncWrapper::new(stream))`,
the closure being the entry point `client_configuration.connect(domain, _)`.
`fuel` bounds the scheduler's polls; on success the resulting stream wraps
the same transport, its shim state evolved by the handshake. -/
def TlsConnector.connect (c : TlsConnector) (domain : String) (stream : TcpStream)
    (fuel : Nat) : Poll (Except TlsError TlsStream) :=
  let client_configuration := (c.inner.configure).verify_hostname c.verify_hostname
  match drive fuel (.Initial client_configuration domain) stream.wrapper with
  | ⟨.pending, _, _, _⟩ => .pending
  | ⟨.ready (.error e), _, _, _⟩ => .ready (.error e)
  | ⟨.ready (.ok sess), _, t', _⟩ => .ready (.ok ⟨sess, { stream with wrapper := t' }⟩)

/-- `TlsAnonymousConnector` (connector.rs:101-102): a newtype around
`TlsConnector` (the Rust `.0` field is named `inner` here). -/
structure TlsAnonymousConnector where
  inner : TlsConnector
deriving DecidableEq, Repr

/-- `From<TlsConnector> for TlsAnonymousConnector` (connector.rs:104-108). -/
def TlsAnonymousConnector.from (c : TlsConnector) : TlsAnonymousConnector := ⟨c⟩

/-- `TcpDomainConnector for TlsAnonymousConnector` (connector.rs:110-125):
dial TCP to `domain`, read the raw fd before the handshake, then TLS
connect to the same `domain`; a TLS failure is converted with
`into_io_error`. -/
def TlsAnonymousConnector.connect (c : TlsAnonymousConnector) (net : Net)
    (fuel : Nat) (domain : String) : Poll (Except IoError (TlsStream × Int)) :=
  match net domain with
  | .error code => .ready (.error (.os code))
  | .ok tcp_stream =>
    let fd := tcp_stream.as_raw_fd
    match c.inner.connect domain tcp_stream fuel with
    | .pending => .pending
    | .ready (.error err) => .ready (.error err.into_io_error)
    | .ready (.ok s) => .ready (.ok (s, fd))

/-- `TlsDomainConnector` (connector.rs:127-131). -/
structure TlsDomainConnector where
  domain : String
  connector : TlsConnector
deriving DecidableEq, Repr

/-- `TlsDomainConnector::new` (connector.rs:133-137). -/
def TlsDomainConnector.new (connector : TlsConnector) (domain : String) :
    TlsDomainConnector :=
  { domain := domain, connector := connector }

/-- `TcpDomainConnector for TlsDomainConnector` (connector.rs:139-157):
dial TCP to `addr`, read the raw fd before the handshake, then TLS
connect to the stored `self.domain` (not `addr`); a TLS failure is
converted with `into_io_error`. -/
def TlsDomainConnector.connect (c : TlsDomainConnector) (net : Net)
    (fuel : Nat) (addr : String) : Poll (Except IoError (TlsStream × Int)) :=
  match net addr with
  | .error code => .ready (.error (.os code))
  | .ok tcp_stream =>
    let fd := tcp_stream.as_raw_fd
    match c.connector.connect c.domain tcp_stream fuel with
    | .pending => .pending
    | .ready (.error err) => .ready (.error err.into_io_error)
    | .ready (.ok s) => .ready (.ok (s, fd))

/-- `DefaultTcpDomainConnector` (`crate::net`, unit struct). -/
structure DefaultTcpDomainConnector where
deriving DecidableEq, Repr

/-- Modelled from the spec (§4.4): the plain TCP connector of
`crate::net` (not in the visible slice): dial TCP and return the plain
stream with its raw fd, with no handshake. -/
def DefaultTcpDomainConnector.connect (_c : DefaultTcpDomainConnector) (net : Net)
    (domain : String) : Poll (Except IoError (TcpStream × Int)) :=
  match net domain with
  | .error code => .ready (.error (.os code))
  | .ok t => .ready (.ok (t, t.as_raw_fd))

/-- `AllTcpStream` (`super::stream`): the uniform stream handle, either a
plain TCP stream (via `AllTcpStream::tcp`) or a TLS stream (via
`AllTcpStream::tls`). -/
inductive AllTcpStream where
  | tcp (s : TcpStream)
  | tls (s : TlsStream)
deriving DecidableEq, Repr

/-- `AllDomainConnector` (connector.rs:159-164). -/
inductive AllDomainConnector where
  | Tcp (c : DefaultTcpDomainConnector)
  | TlsDomain (c : TlsDomainConnector)
  | TlsAnonymous (c : TlsAnonymousConnector)

/-- `AllDomainConnector::default_tcp` (connector.rs:172-175). -/
def AllDomainConnector.default_tcp : AllDomainConnector :=
  .Tcp ⟨⟩

/-- `impl Default for AllDomainConnector` (connector.rs:166-170). -/
def AllDomainConnector.default : AllDomainConnector :=
  AllDomainConnector.default_tcp

/-- `AllDomainConnector::new_tls_domain` (connector.rs:177-179). -/
def AllDomainConnector.new_tls_domain (c : TlsDomainConnector) : AllDomainConnector :=
  .TlsDomain c

/-- `AllDomainConnector::new_tls_anonymous` (connector.rs:181-183). -/
def AllDomainConnector.new_tls_anonymous (c : TlsAnonymousConnector) : AllDomainConnector :=
  .TlsAnonymous c

/-- `TcpDomainConnector for AllDomainConnector` (connector.rs:186-207):
dispatch on the configured variant only; the plain variant wraps with
`AllTcpStream::tcp`, both TLS variants with `AllTcpStream::tls`; the inner
connector's fd is passed through unchanged. -/
def AllDomainConnector.connect (c : AllDomainConnector) (net : Net) (fuel : Nat)
    (domain : String) : Poll (Except IoError (AllTcpStream × Int)) :=
  match c with
  | .Tcp connector =>
    match connector.connect net domain with
    | .pending => .pending
    | .ready (.error e) => .ready (.error e)
    | .ready (.ok (stream, fd)) => .ready (.ok (.tcp stream, fd))
  | .TlsDomain connector =>
    match connector.connect net fuel domain with
    | .pending => .pending
    | .ready (.error e) => .ready (.error e)
    | .ready (.ok (stream, fd)) => .ready (.ok (.tls stream, fd))
  | .TlsAnonymous connector =>
    match connector.connect net fuel domain with
    | .pending => .pending
    | .ready (.error e) => .ready (.error e)
    | .ready (.ok (stream, fd)) => .ready (.ok (.tls stream, fd))

/-- Outcome of draining a write buffer through the shim. -/
inductive WriteOutcome where
  | done
  | pending
  | failed (code : Nat)
deriving DecidableEq, Repr

/-- Modelled from the spec (§4.3): the established-session stream's write
drain: keep offering the remaining buffer to the shim; an accepted count
`n` drops exactly `n` bytes; a would-block suspends and retries on
resumption (one fuel unit per shim call); a fatal error fails the
stream.  Returns the outcome, the evolved shim and the bytes still
unwritten. -/
def writeLoop : Nat → AsyncToSyncWrapper → List Byte → WriteOutcome × AsyncToSyncWrapper × List Byte
  | 0, t, buf => (.pending, t, buf)
  | fuel + 1, t, buf =>
    if buf.isEmpty then (.done, t, buf)
    else
      match t.write buf with
      | (.ok n, t') => writeLoop fuel t' (buf.drop n)
      | (.wouldBlock, t') => writeLoop fuel t' buf
      | (.ioError c, t') => (.failed c, t', buf)

/-- Outcome of one read through the shim. -/
inductive ReadOutcome where
  | got (n : Nat)
  | pending
  | failed (code : Nat)
deriving DecidableEq, Repr

/-- Modelled from the spec (§4.3): the established-session stream's read:
ask the shim; on would-block suspend and retry on resumption; surface
data or a fatal error. -/
def readLoop : Nat → AsyncToSyncWrapper → ReadOutcome × AsyncToSyncWrapper
  | 0, t => (.pending, t)
  | fuel + 1, t =>
    match t.op with
    | (.ok n, t') => (.got n, t')
    | (.wouldBlock, t') => readLoop fuel t'
    | (.ioError c, t') => (.failed c, t')

/-- Modelled from the spec (§4.3): `read` on the established stream:
would-block is converted into suspension (`pending`), never surfaced as
an error. -/
def TlsStream.read (s : TlsStream) (fuel : Nat) : Poll (Except TlsError Nat) × TlsStream :=
  match readLoop fuel s.inner.wrapper with
  | (.got n, t') => (.ready (.ok n), { s with inner := { s.inner with wrapper := t' } })
  | (.pending, t') => (.pending, { s with inner := { s.inner with wrapper := t' } })
  | (.failed c, t') => (.ready (.error (.io c)), { s with inner := { s.inner with wrapper := t' } })

/-- Modelled from the spec (§4.3): `write` on the established stream:
drain the whole buffer, suspending on would-block; success is reported
only once every byte was accepted by the shim. -/
def TlsStream.write (s : TlsStream) (fuel : Nat) (buf : List Byte) :
    Poll (Except TlsError Nat) × TlsStream :=
  match writeLoop fuel s.inner.wrapper buf with
  | (.done, t', _) => (.ready (.ok buf.length), { s with inner := { s.inner with wrapper := t' } })
  | (.pending, t', _) => (.pending, { s with inner := { s.inner with wrapper := t' } })
  | (.failed c, t', _) => (.ready (.error (.io c)), { s with inner := { s.inner with wrapper := t' } })

/-- Does a poll outcome surface the internal would-block signal as an
error to the caller? -/
def pollLeaksWouldBlock {α : Type} : Poll (Except TlsError α) → Bool
  | .ready (.error e) => e.isWouldBlock
  | _ => false

/-- Does a poll outcome on the I/O-error surface carry the internal
would-block signal? -/
def ioPollLeaksWouldBlock {α : Type} : Poll (Except IoError α) → Bool
  | .ready (.error e) => e.isWouldBlock
  | _ => false

lemma pollOnce_next_not_initial (f : HandshakeFuture) (t : AsyncToSyncWrapper) :
    (pollOnce f t).next.isInitial = false := by
  cases f <;> simp only [pollOnce] <;> (try split) <;> rfl

lemma pollOnce_initial_calls (cc : ConnectConfiguration) (d : String)
    (t : AsyncToSyncWrapper) :
    (pollOnce (.Initial cc d) t).entryCalls = 1 := by
  simp only [pollOnce]
  split <;> rfl

lemma pollOnce_other_calls (f : HandshakeFuture) (t : AsyncToSyncWrapper)
    (h : f.isInitial = false) : (pollOnce f t).entryCalls = 0 := by
  cases f with
  | Initial cc d => simp [HandshakeFuture.isInitial] at h
  | MidHandshake mid =>
    simp only [pollOnce]
    split <;> rfl
  | Done => rfl

lemma drive_not_initial_calls (fuel : Nat) :
    ∀ (f : HandshakeFuture) (t : AsyncToSyncWrapper),
      f.isInitial = false → (drive fuel f t).entryCalls = 0 := by
  induction fuel with
  | zero => intro f t _; rfl
  | succ n ih =>
    intro f t h
    simp only [drive]
    rcases hp : pollOnce f t with ⟨p, f', t', k⟩
    have hk : k = 0 := by
      have := pollOnce_other_calls f t h
      rw [hp] at this
      exact this
    have hf' : f'.isInitial = false := by
      have := pollOnce_next_not_initial f t
      rw [hp] at this
      exact this
    cases p with
    | ready v => simpa using hk
    | pending => simp [hk, ih f' t' hf']

lemma drive_initial_calls_succ (n : Nat) (cc : ConnectConfiguration) (d : String)
    (t : AsyncToSyncWrapper) :
    (drive (n + 1) (.Initial cc d) t).entryCalls = 1 := by
  simp only [drive]
  rcases hp : pollOnce (.Initial cc d) t with ⟨p, f', t', k⟩
  have hk : k = 1 := by
    have := pollOnce_initial_calls cc d t
    rw [hp] at this
    exact this
  have hf' : f'.isInitial = false := by
    have := pollOnce_next_not_initial (.Initial cc d) t
    rw [hp] at this
    exact this
  cases p with
  | ready v => simpa using hk
  | pending => simp [hk, drive_not_initial_calls n f' t' hf']

/-- C1: for every connection attempt, the synchronous handshake entry
point is invoked at most once: starting the driver in its `Initial` state,
any number of scheduler polls invokes the entry point at most once — and
as soon as the driver is polled at all, exactly once; every later
resumption continues the retained continuation instead. -/
theorem handshake_entry_invoked_at_most_once (fuel : Nat) (cc : ConnectConfiguration)
    (d : String) (t : AsyncToSyncWrapper) :
    (drive fuel (.Initial cc d) t).entryCalls ≤ 1 ∧
    ∀ n, (drive (n + 1) (.Initial cc d) t).entryCalls = 1 := by
  constructor
  · cases fuel with
    | zero => exact Nat.zero_le 1
    | succ n => exact Nat.le_of_eq (drive_initial_calls_succ n cc d t)
  · intro n
    exact drive_initial_calls_succ n cc d t

/-- C5: a transport-level fatal error occurring during the handshake —
whether on the very first invocation of the entry point or on a
resumption of the retained continuation — makes the attempt fail with
that fatal error; the driver never maps it to a suspension. -/
theorem transport_fatal_error_fails_attempt (fz r : Nat) (vh : Bool) (d : String)
    (rest : List IoStep) (recv : List Byte) (c : Nat) :
    (drive (fz + 1) (.Initial ⟨r + 1, vh⟩ d) ⟨.fatal c :: rest, recv⟩).poll
        = .ready (.error (.io c)) ∧
    (drive (fz + 1) (.MidHandshake ⟨d, vh, r + 1⟩) ⟨.fatal c :: rest, recv⟩).poll
        = .ready (.error (.io c)) := by
  constructor <;> rfl

lemma pollOnce_no_would_block (f : HandshakeFuture) (t : AsyncToSyncWrapper) :
    pollLeaksWouldBlock (pollOnce f t).poll = false := by
  cases f <;> simp only [pollOnce] <;> (try split) <;> rfl

lemma drive_no_would_block (fuel : Nat) :
    ∀ (f : HandshakeFuture) (t : AsyncToSyncWrapper),
      pollLeaksWouldBlock (drive fuel f t).poll = false := by
  induction fuel with
  | zero => intro f t; rfl
  | succ n ih =>
    intro f t
    simp only [drive]
    rcases hp : pollOnce f t with ⟨p, f', t', k⟩
    cases p with
    | ready v =>
      have := pollOnce_no_would_block f t
      rw [hp] at this
      simpa using this
    | pending => simpa using ih f' t'

lemma connect_no_would_block (c : TlsConnector) (d : String) (s : TcpStream)
    (fuel : Nat) : pollLeaksWouldBlock (c.connect d s fuel) = false := by
  have h := drive_no_would_block fuel
    (.Initial ((c.inner.configure).verify_hostname c.verify_hostname) d) s.wrapper
  simp only [TlsConnector.connect]
  rcases hd : drive fuel
      (.Initial ((c.inner.configure).verify_hostname c.verify_hostname) d) s.wrapper
    with ⟨p, f', t', k⟩
  rw [hd] at h
  rcases p with _ | (e | sess)
  · rfl
  · simpa [pollLeaksWouldBlock] using h
  · rfl

lemma connect_error_not_would_block {c : TlsConnector} {d : String} {s : TcpStream}
    {fuel : Nat} {e : TlsError} (h : c.connect d s fuel = .ready (.error e)) :
    e.isWouldBlock = false := by
  have := connect_no_would_block c d s fuel
  rw [h] at this
  simpa [pollLeaksWouldBlock] using this

lemma tls_anonymous_no_would_block (c : TlsAnonymousConnector) (net : Net)
    (fuel : Nat) (d : String) :
    ioPollLeaksWouldBlock (c.connect net fuel d) = false := by
  unfold TlsAnonymousConnector.connect
  split
  · rfl
  · rename_i tcp heq
    split
    · rfl
    · rename_i err herr
      have := connect_error_not_would_block herr
      simpa [ioPollLeaksWouldBlock, TlsError.into_io_error, IoError.isWouldBlock] using this
    · rfl

lemma tls_domain_no_would_block (c : TlsDomainConnector) (net : Net)
    (fuel : Nat) (a : String) :
    ioPollLeaksWouldBlock (c.connect net fuel a) = false := by
  unfold TlsDomainConnector.connect
  split
  · rfl
  · rename_i tcp heq
    split
    · rfl
    · rename_i err herr
      have := connect_error_not_would_block herr
      simpa [ioPollLeaksWouldBlock, TlsError.into_io_error, IoError.isWouldBlock] using this
    · rfl

lemma default_tcp_no_would_block (c : DefaultTcpDomainConnector) (net : Net)
    (d : String) : ioPollLeaksWouldBlock (c.connect net d) = false := by
  unfold DefaultTcpDomainConnector.connect
  split <;> rfl

lemma all_domain_no_would_block (c : AllDomainConnector) (net : Net)
    (fuel : Nat) (d : String) :
    ioPollLeaksWouldBlock (c.connect net fuel d) = false := by
  cases c with
  | Tcp connector =>
    have h := default_tcp_no_would_block connector net d
    simp only [AllDomainConnector.connect]
    rcases hq : connector.connect net d with _ | (e | ⟨stream, fd⟩)
    · rfl
    · rw [hq] at h
      simpa [ioPollLeaksWouldBlock] using h
    · rfl
  | TlsDomain connector =>
    have h := tls_domain_no_would_block connector net fuel d
    simp only [AllDomainConnector.connect]
    rcases hq : connector.connect net fuel d with _ | (e | ⟨stream, fd⟩)
    · rfl
    · rw [hq] at h
      simpa [ioPollLeaksWouldBlock] using h
    · rfl
  | TlsAnonymous connector =>
    have h := tls_anonymous_no_would_block connector net fuel d
    simp only [AllDomainConnector.connect]
    rcases hq : connector.connect net fuel d with _ | (e | ⟨stream, fd⟩)
    · rfl
    · rw [hq] at h
      simpa [ioPollLeaksWouldBlock] using h
    · rfl

lemma stream_read_no_would_block (s : TlsStream) (fuel : Nat) :
    pollLeaksWouldBlock (s.read fuel).1 = false := by
  unfold TlsStream.read
  split <;> rfl

lemma stream_write_no_would_block (s : TlsStream) (fuel : Nat) (buf : List Byte) :
    pollLeaksWouldBlock (s.write fuel buf).1 = false := by
  unfold TlsStream.write
  split <;> rfl

/-- C2: no call on the public surface ever hands the internal would-block
signal to the caller: the handshake driver, `TlsConnector::connect`,
`read`/`write` on the established stream, and every `TcpDomainConnector`
implementation surface only success, suspension, or a non-would-block
error — every would-block from the underlying library becomes a
suspend/resume cycle internally. -/
theorem would_block_never_escapes (fuel : Nat) (f : HandshakeFuture)
    (t : AsyncToSyncWrapper) (c : TlsConnector) (d : String) (stream : TcpStream)
    (s : TlsStream) (buf : List Byte) (ca : TlsAnonymousConnector)
    (cd : TlsDomainConnector) (ac : AllDomainConnector) (net : Net) :
    pollLeaksWouldBlock (drive fuel f t).poll = false ∧
    pollLeaksWouldBlock (c.connect d stream fuel) = false ∧
    pollLeaksWouldBlock (s.read fuel).1 = false ∧
    pollLeaksWouldBlock (s.write fuel buf).1 = false ∧
    ioPollLeaksWouldBlock (ca.connect net fuel d) = false ∧
    ioPollLeaksWouldBlock (cd.connect net fuel d) = false ∧
    ioPollLeaksWouldBlock (ac.connect net fuel d) = false :=
  ⟨drive_no_would_block fuel f t, connect_no_would_block c d stream fuel,
   stream_read_no_would_block s fuel, stream_write_no_would_block s fuel buf,
   tls_anonymous_no_would_block ca net fuel d, tls_domain_no_would_block cd net fuel d,
   all_domain_no_would_block ac net fuel d⟩

lemma writeLoop_balance (fuel : Nat) :
    ∀ (t : AsyncToSyncWrapper) (buf : List Byte),
      ((writeLoop fuel t buf).2.1).received ++ (writeLoop fuel t buf).2.2
        = t.received ++ buf := by
  induction fuel with
  | zero => intro t buf; rfl
  | succ n ih =>
    rintro ⟨script, recv⟩ buf
    cases hb : buf.isEmpty with
    | true => simp [writeLoop, hb]
    | false =>
      cases script with
      | nil =>
        simpa [writeLoop, hb, AsyncToSyncWrapper.write] using ih ⟨[], recv⟩ buf
      | cons step rest =>
        cases step with
        | ready k =>
          have := ih ⟨rest, recv ++ buf.take (min k buf.length)⟩
            (buf.drop (min k buf.length))
          simp only [writeLoop, hb, Bool.false_eq_true, if_false,
            AsyncToSyncWrapper.write] at this ⊢
          rw [this, List.append_assoc, List.take_append_drop]
        | notReady =>
          simpa [writeLoop, hb, AsyncToSyncWrapper.write] using ih ⟨rest, recv⟩ buf
        | fatal c =>
          simp [writeLoop, hb, AsyncToSyncWrapper.write]

/-- C3: partial writes are exact.  When the asynchronous transport is
ready to accept `k` of the `n` offered bytes, the shim's synchronous write
reports exactly `k` and hands exactly the first `k` bytes to the
transport; the drain loop above resumes with exactly the remaining
`n - k` bytes on its next call; and across any run of the drain loop the
bytes accepted by the transport followed by the bytes still unwritten are
exactly the bytes offered — none lost, none duplicated. -/
theorem shim_partial_write_exact (k : Nat) (rest : List IoStep) (recv buf : List Byte)
    (hk : k ≤ buf.length) :
    AsyncToSyncWrapper.write ⟨.ready k :: rest, recv⟩ buf
        = (.ok k, ⟨rest, recv ++ buf.take k⟩) ∧
    (buf ≠ [] → ∀ fuel, writeLoop (fuel + 1) ⟨.ready k :: rest, recv⟩ buf
        = writeLoop fuel ⟨rest, recv ++ buf.take k⟩ (buf.drop k)) ∧
    ∀ fuel (t0 : AsyncToSyncWrapper),
      ((writeLoop fuel t0 buf).2.1).received ++ (writeLoop fuel t0 buf).2.2
        = t0.received ++ buf := by
  have hm : min k buf.length = k := Nat.min_eq_left hk
  refine ⟨?_, ?_, ?_⟩
  · simp [AsyncToSyncWrapper.write, hm]
  · intro hne fuel
    have hb : buf.isEmpty = false := by
      cases buf with
      | nil => exact absurd rfl hne
      | cons a l => rfl
    simp [writeLoop, hb, AsyncToSyncWrapper.write, hm]
  · intro fuel t0
    exact writeLoop_balance fuel t0 buf

/-- Witness for C3 at a concrete partial write: the transport accepts 2 of
3 offered bytes. -/
theorem shim_partial_write_exact_witness :
    AsyncToSyncWrapper.write ⟨[.ready 2], []⟩ [10, 11, 12]
        = (.ok 2, ⟨[], ([] : List Byte) ++ [10, 11, 12].take 2⟩) ∧
    (([10, 11, 12] : List Byte) ≠ [] → ∀ fuel,
      writeLoop (fuel + 1) ⟨[.ready 2], []⟩ [10, 11, 12]
        = writeLoop fuel ⟨[], ([] : List Byte) ++ [10, 11, 12].take 2⟩
            ([10, 11, 12].drop 2)) ∧
    ∀ fuel (t0 : AsyncToSyncWrapper),
      ((writeLoop fuel t0 [10, 11, 12]).2.1).received
          ++ (writeLoop fuel t0 [10, 11, 12]).2.2
        = t0.received ++ [10, 11, 12] :=
  shim_partial_write_exact 2 [] [] [10, 11, 12] (by decide)

lemma hsRun_ok (d : String) (vh : Bool) (r : Nat) :
    ∀ (t t' : AsyncToSyncWrapper) (s : Session),
      hsRun d vh r t = (.ok s, t') → s = ⟨d, vh⟩ := by
  induction r with
  | zero =>
    intro t t' s h
    injection h with h1 h2
    injection h1 with h3
    exact h3.symm
  | succ n ih =>
    intro t t' s h
    simp only [hsRun] at h
    rcases hop : t.op with ⟨io, t2⟩
    rw [hop] at h
    cases io with
    | ok m => exact ih t2 t' s h
    | wouldBlock => simp at h
    | ioError c => simp at h

lemma hsRun_mid (d : String) (vh : Bool) (r : Nat) :
    ∀ (t t' : AsyncToSyncWrapper) (m : MidHandshake),
      hsRun d vh r t = (.wouldBlock m, t') → m.domain = d ∧ m.verifyHostname = vh := by
  induction r with
  | zero =>
    intro t t' m h
    simp [hsRun] at h
  | succ n ih =>
    intro t t' m h
    simp only [hsRun] at h
    rcases hop : t.op with ⟨io, t2⟩
    rw [hop] at h
    cases io with
    | ok k => exact ih t2 t' m h
    | wouldBlock =>
      injection h with h1 h2
      injection h1 with h3
      rw [← h3]
      exact ⟨rfl, rfl⟩
    | ioError c => simp at h

/-- The handshake target identity and verification flag the driver state
is committed to. -/
def HandshakeFuture.carries (f : HandshakeFuture) (d : String) (vh : Bool) : Prop :=
  match f with
  | .Initial cc d' => d' = d ∧ cc.verifyHostname = vh
  | .MidHandshake m => m.domain = d ∧ m.verifyHostname = vh
  | .Done => True

lemma pollOnce_ok {f : HandshakeFuture} {t : AsyncToSyncWrapper} {d : String}
    {vh : Bool} {s : Session} (hc : f.carries d vh)
    (h : (pollOnce f t).poll = .ready (.ok s)) : s = ⟨d, vh⟩ := by
  cases f with
  | Initial cc d' =>
    obtain ⟨hd', hvh⟩ := hc
    simp only [pollOnce, ConnectConfiguration.connect] at h
    rcases hr : hsRun d' cc.verifyHostname cc.rounds t with ⟨o, t2⟩
    rw [hr] at h
    cases o with
    | ok s0 =>
      simp only at h
      injection h with h1
      injection h1 with h2
      rw [← h2]
      rw [hsRun_ok d' cc.verifyHostname cc.rounds t t2 s0 hr, hd', hvh]
    | wouldBlock m => simp at h
    | fatal c => simp at h
  | MidHandshake m =>
    obtain ⟨hd', hvh⟩ := hc
    simp only [pollOnce] at h
    rcases hr : hsRun m.domain m.verifyHostname m.roundsLeft t with ⟨o, t2⟩
    rw [hr] at h
    cases o with
    | ok s0 =>
      simp only at h
      injection h with h1
      injection h1 with h2
      rw [← h2]
      rw [hsRun_ok m.domain m.verifyHostname m.roundsLeft t t2 s0 hr, hd', hvh]
    | wouldBlock m2 => simp at h
    | fatal c => simp at h
  | Done => simp [pollOnce] at h

lemma pollOnce_carries {f : HandshakeFuture} {t : AsyncToSyncWrapper} {d : String}
    {vh : Bool} (hc : f.carries d vh) : (pollOnce f t).next.carries d vh := by
  cases f with
  | Initial cc d' =>
    obtain ⟨hd', hvh⟩ := hc
    simp only [pollOnce, ConnectConfiguration.connect]
    rcases hr : hsRun d' cc.verifyHostname cc.rounds t with ⟨o, t2⟩
    cases o with
    | ok s0 => exact trivial
    | wouldBlock m =>
      have := hsRun_mid d' cc.verifyHostname cc.rounds t t2 m hr
      exact ⟨this.1.trans hd', this.2.trans hvh⟩
    | fatal c => exact trivial
  | MidHandshake m =>
    obtain ⟨hd', hvh⟩ := hc
    simp only [pollOnce]
    rcases hr : hsRun m.domain m.verifyHostname m.roundsLeft t with ⟨o, t2⟩
    cases o with
    | ok s0 => exact trivial
    | wouldBlock m2 =>
      have := hsRun_mid m.domain m.verifyHostname m.roundsLeft t t2 m2 hr
      exact ⟨this.1.trans hd', this.2.trans hvh⟩
    | fatal c => exact trivial
  | Done => exact trivial

lemma drive_ok (fuel : Nat) :
    ∀ (f : HandshakeFuture) (t : AsyncToSyncWrapper) (d : String) (vh : Bool)
      (s : Session), f.carries d vh →
      (drive fuel f t).poll = .ready (.ok s) → s = ⟨d, vh⟩ := by
  induction fuel with
  | zero => intro f t d vh s _ h; simp [drive] at h
  | succ n ih =>
    intro f t d vh s hc h
    simp only [drive] at h
    rcases hp : pollOnce f t with ⟨p, f', t', k⟩
    rw [hp] at h
    cases p with
    | ready v =>
      simp only at h
      have hpoll : (pollOnce f t).poll = .ready (.ok s) := by
        rw [hp]
        simpa using h
      exact pollOnce_ok hc hpoll
    | pending =>
      simp only at h
      have hnext : f'.carries d vh := by
        have := pollOnce_carries (t := t) hc
        rw [hp] at this
        exact this
      exact ih f' t' d vh s hnext h

lemma tls_connect_ok {c : TlsConnector} {d : String} {st : TcpStream} {fuel : Nat}
    {s : TlsStream} (h : c.connect d st fuel = .ready (.ok s)) :
    s.session = ⟨d, c.verify_hostname⟩ ∧ s.inner.fd = st.fd := by
  simp only [TlsConnector.connect] at h
  rcases hd : drive fuel
      (.Initial ((c.inner.configure).verify_hostname c.verify_hostname) d) st.wrapper
    with ⟨p, f', t', k⟩
  rw [hd] at h
  rcases p with _ | (e | sess)
  · simp at h
  · simp at h
  · simp only at h
    injection h with h1
    injection h1 with h2
    have hsess : sess = ⟨d, c.verify_hostname⟩ := by
      apply drive_ok fuel
        (.Initial ((c.inner.configure).verify_hostname c.verify_hostname) d)
        st.wrapper d c.verify_hostname sess ⟨rfl, rfl⟩
      rw [hd]
    rw [← h2, hsess]
    exact ⟨rfl, rfl⟩

lemma anonymous_connect_ok {ca : TlsAnonymousConnector} {net : Net} {fuel : Nat}
    {d : String} {tcp : TcpStream} {s : TlsStream} {fd : Int}
    (hn : net d = .ok tcp)
    (h : ca.connect net fuel d = .ready (.ok (s, fd))) :
    fd = tcp.fd ∧ ca.inner.connect d tcp fuel = .ready (.ok s) := by
  simp only [TlsAnonymousConnector.connect, hn] at h
  rcases hq : ca.inner.connect d tcp fuel with _ | (e | s0)
  · rw [hq] at h; simp at h
  · rw [hq] at h; simp at h
  · rw [hq] at h
    simp only at h
    injection h with h1
    injection h1 with h2
    injection h2 with h3 h4
    exact ⟨h4.symm, by rw [h3]⟩

lemma domain_connect_ok {cd : TlsDomainConnector} {net : Net} {fuel : Nat}
    {a : String} {tcp : TcpStream} {s : TlsStream} {fd : Int}
    (hn : net a = .ok tcp)
    (h : cd.connect net fuel a = .ready (.ok (s, fd))) :
    fd = tcp.fd ∧ cd.connector.connect cd.domain tcp fuel = .ready (.ok s) := by
  simp only [TlsDomainConnector.connect, hn] at h
  rcases hq : cd.connector.connect cd.domain tcp fuel with _ | (e | s0)
  · rw [hq] at h; simp at h
  · rw [hq] at h; simp at h
  · rw [hq] at h
    simp only at h
    injection h with h1
    injection h1 with h2
    injection h2 with h3 h4
    exact ⟨h4.symm, by rw [h3]⟩

/-- C4: whenever the TLS handshake itself fails inside
`TlsAnonymousConnector::connect` or `TlsDomainConnector::connect`, the
method returns exactly the error obtained by converting the TLS error
with `into_io_error`, and no stream value reaches the caller — the
result carries no `ok` component. -/
theorem handshake_failure_yields_io_error (ca : TlsAnonymousConnector)
    (cd : TlsDomainConnector) (net : Net) (fuel : Nat) (d a : String)
    (tcp tcp2 : TcpStream) (e e2 : TlsError)
    (h1 : net d = .ok tcp)
    (h2 : ca.inner.connect d tcp fuel = .ready (.error e))
    (h3 : net a = .ok tcp2)
    (h4 : cd.connector.connect cd.domain tcp2 fuel = .ready (.error e2)) :
    ca.connect net fuel d = .ready (.error e.into_io_error) ∧
    cd.connect net fuel a = .ready (.error e2.into_io_error) := by
  constructor
  · simp only [TlsAnonymousConnector.connect, h1, h2]
  · simp only [TlsDomainConnector.connect, h3, h4]

/-- Witness for C4: a transport that resets during the handshake makes
both connectors return the converted TLS error. -/
theorem handshake_failure_yields_io_error_witness :
    TlsAnonymousConnector.connect ⟨⟨⟨1⟩, true⟩⟩
        (fun _ => .ok ⟨4, ⟨[.fatal 3], []⟩⟩) 1 "x"
      = .ready (.error ((TlsError.io 3).into_io_error)) ∧
    TlsDomainConnector.connect ⟨"dom", ⟨⟨1⟩, true⟩⟩
        (fun _ => .ok ⟨4, ⟨[.fatal 3], []⟩⟩) 1 "y"
      = .ready (.error ((TlsError.io 3).into_io_error)) :=
  handshake_failure_yields_io_error ⟨⟨⟨1⟩, true⟩⟩ ⟨"dom", ⟨⟨1⟩, true⟩⟩
    (fun _ => .ok ⟨4, ⟨[.fatal 3], []⟩⟩) 1 "x" "y"
    ⟨4, ⟨[.fatal 3], []⟩⟩ ⟨4, ⟨[.fatal 3], []⟩⟩ (.io 3) (.io 3) rfl rfl rfl rfl

/-- C9: a builder freshly obtained from `TlsConnector::builder()` has
hostname verification enabled; `with_hostname_vertification_disabled`
turns it off; `build()` carries the flag over verbatim; and a successful
`connect` applies exactly the connector's flag to the session
configuration. -/
theorem hostname_verification_flag_flow (sslRounds : Nat)
    (b b' b0 : TlsConnectorBuilder) (c : TlsConnector) (d : String)
    (st : TcpStream) (fuel : Nat) (s : TlsStream)
    (h0 : TlsConnector.builder sslRounds = .ok b0)
    (h1 : b.with_hostname_vertification_disabled = .ok b')
    (h2 : c.connect d st fuel = .ready (.ok s)) :
    b0.verify_hostname = true ∧
    b'.verify_hostname = false ∧
    b.build.verify_hostname = b.verify_hostname ∧
    s.session.verifiedHostname = c.verify_hostname := by
  refine ⟨?_, ?_, rfl, ?_⟩
  · injection h0 with h
    rw [← h]
  · injection h1 with h
    rw [← h]
  · rw [(tls_connect_ok h2).1]

/-- Witness for C9: a connector with verification left enabled, connected
over a transport that is immediately ready. -/
theorem hostname_verification_flag_flow_witness :
    TlsConnectorBuilder.verify_hostname ⟨⟨0⟩, true⟩ = true ∧
    TlsConnectorBuilder.verify_hostname ⟨⟨0⟩, false⟩ = false ∧
    (TlsConnectorBuilder.build ⟨⟨0⟩, true⟩).verify_hostname
        = TlsConnectorBuilder.verify_hostname ⟨⟨0⟩, true⟩ ∧
    Session.verifiedHostname (TlsStream.session ⟨⟨"d", true⟩, ⟨1, ⟨[], []⟩⟩⟩)
        = TlsConnector.verify_hostname ⟨⟨0⟩, true⟩ :=
  hostname_verification_flag_flow 0 ⟨⟨0⟩, true⟩ ⟨⟨0⟩, false⟩ ⟨⟨0⟩, true⟩
    ⟨⟨0⟩, true⟩ "d" ⟨1, ⟨[], []⟩⟩ 1 ⟨⟨"d", true⟩, ⟨1, ⟨[], []⟩⟩⟩ rfl rfl rfl

lemma all_tcp_ok {dc : DefaultTcpDomainConnector} {net : Net} {fuel : Nat}
    {d : String} {tcp : TcpStream} {u : AllTcpStream} {fd : Int}
    (hn : net d = .ok tcp)
    (h : AllDomainConnector.connect (.Tcp dc) net fuel d = .ready (.ok (u, fd))) :
    u = .tcp tcp ∧ fd = tcp.fd := by
  simp only [AllDomainConnector.connect, DefaultTcpDomainConnector.connect, hn] at h
  injection h with h1
  injection h1 with h2
  injection h2 with h3 h4
  exact ⟨h3.symm, h4.symm⟩

lemma all_tls_domain_ok {cd : TlsDomainConnector} {net : Net} {fuel : Nat}
    {d : String} {u : AllTcpStream} {fd : Int}
    (h : AllDomainConnector.connect (.TlsDomain cd) net fuel d = .ready (.ok (u, fd))) :
    ∃ s, cd.connect net fuel d = .ready (.ok (s, fd)) ∧ u = .tls s := by
  simp only [AllDomainConnector.connect] at h
  rcases hq : cd.connect net fuel d with _ | (e | ⟨s0, fd0⟩)
  · rw [hq] at h; simp at h
  · rw [hq] at h; simp at h
  · rw [hq] at h
    simp only at h
    injection h with h1
    injection h1 with h2
    injection h2 with h3 h4
    refine ⟨s0, ?_, h3.symm⟩
    rw [h4]

lemma all_tls_anonymous_ok {ca : TlsAnonymousConnector} {net : Net} {fuel : Nat}
    {d : String} {u : AllTcpStream} {fd : Int}
    (h : AllDomainConnector.connect (.TlsAnonymous ca) net fuel d
        = .ready (.ok (u, fd))) :
    ∃ s, ca.connect net fuel d = .ready (.ok (s, fd)) ∧ u = .tls s := by
  simp only [AllDomainConnector.connect] at h
  rcases hq : ca.connect net fuel d with _ | (e | ⟨s0, fd0⟩)
  · rw [hq] at h; simp at h
  · rw [hq] at h; simp at h
  · rw [hq] at h
    simp only at h
    injection h with h1
    injection h1 with h2
    injection h2 with h3 h4
    refine ⟨s0, ?_, h3.symm⟩
    rw [h4]

/-- C6: every successful connect — through `TlsAnonymousConnector`,
`TlsDomainConnector`, or any `AllDomainConnector` variant — returns the
pair of the stream and the raw fd read from the freshly connected TCP
transport before the handshake, the stream being the handle wrapping that
same transport. -/
theorem connect_returns_stream_and_fresh_fd
    (ca : TlsAnonymousConnector) (cd : TlsDomainConnector)
    (dc : DefaultTcpDomainConnector) (net : Net) (fuel : Nat)
    (a1 a2 a3 a4 a5 : String) (t1 t2 t3 t4 t5 : TcpStream)
    (s1 s2 : TlsStream) (u3 u4 u5 : AllTcpStream) (f1 f2 f3 f4 f5 : Int)
    (h1 : net a1 = .ok t1)
    (g1 : ca.connect net fuel a1 = .ready (.ok (s1, f1)))
    (h2 : net a2 = .ok t2)
    (g2 : cd.connect net fuel a2 = .ready (.ok (s2, f2)))
    (h3 : net a3 = .ok t3)
    (g3 : AllDomainConnector.connect (.Tcp dc) net fuel a3 = .ready (.ok (u3, f3)))
    (h4 : net a4 = .ok t4)
    (g4 : AllDomainConnector.connect (.TlsDomain cd) net fuel a4
        = .ready (.ok (u4, f4)))
    (h5 : net a5 = .ok t5)
    (g5 : AllDomainConnector.connect (.TlsAnonymous ca) net fuel a5
        = .ready (.ok (u5, f5))) :
    (f1 = t1.as_raw_fd ∧ s1.inner.fd = t1.fd) ∧
    (f2 = t2.as_raw_fd ∧ s2.inner.fd = t2.fd) ∧
    (f3 = t3.as_raw_fd ∧ u3 = .tcp t3) ∧
    (f4 = t4.as_raw_fd ∧ ∃ w, u4 = .tls w ∧ w.inner.fd = t4.fd) ∧
    (f5 = t5.as_raw_fd ∧ ∃ w, u5 = .tls w ∧ w.inner.fd = t5.fd) := by
  obtain ⟨e1, k1⟩ := anonymous_connect_ok h1 g1
  obtain ⟨e2, k2⟩ := domain_connect_ok h2 g2
  obtain ⟨e3, k3⟩ := all_tcp_ok h3 g3
  obtain ⟨w4, k4, hw4⟩ := all_tls_domain_ok g4
  obtain ⟨e4, k4i⟩ := domain_connect_ok h4 k4
  obtain ⟨w5, k5, hw5⟩ := all_tls_anonymous_ok g5
  obtain ⟨e5, k5i⟩ := anonymous_connect_ok h5 k5
  exact ⟨⟨e1, (tls_connect_ok k1).2⟩, ⟨e2, (tls_connect_ok k2).2⟩, ⟨k3, e3⟩,
    ⟨e4, w4, hw4, (tls_connect_ok k4i).2⟩, ⟨e5, w5, hw5, (tls_connect_ok k5i).2⟩⟩

/-- Witness for C6: a network where every address yields the transport
with fd 7 and a one-round handshake succeeds on the first poll. -/
theorem connect_returns_stream_and_fresh_fd_witness :
    ((7 : Int) = TcpStream.as_raw_fd ⟨7, ⟨[.ready 0], []⟩⟩ ∧
      TcpStream.fd (TlsStream.inner ⟨⟨"v", true⟩, ⟨7, ⟨[], []⟩⟩⟩)
        = TcpStream.fd ⟨7, ⟨[.ready 0], []⟩⟩) ∧
    ((7 : Int) = TcpStream.as_raw_fd ⟨7, ⟨[.ready 0], []⟩⟩ ∧
      TcpStream.fd (TlsStream.inner ⟨⟨"dom", true⟩, ⟨7, ⟨[], []⟩⟩⟩)
        = TcpStream.fd ⟨7, ⟨[.ready 0], []⟩⟩) ∧
    ((7 : Int) = TcpStream.as_raw_fd ⟨7, ⟨[.ready 0], []⟩⟩ ∧
      AllTcpStream.tcp ⟨7, ⟨[.ready 0], []⟩⟩ = .tcp ⟨7, ⟨[.ready 0], []⟩⟩) ∧
    ((7 : Int) = TcpStream.as_raw_fd ⟨7, ⟨[.ready 0], []⟩⟩ ∧
      ∃ w, AllTcpStream.tls ⟨⟨"dom", true⟩, ⟨7, ⟨[], []⟩⟩⟩ = .tls w ∧
        w.inner.fd = TcpStream.fd ⟨7, ⟨[.ready 0], []⟩⟩) ∧
    ((7 : Int) = TcpStream.as_raw_fd ⟨7, ⟨[.ready 0], []⟩⟩ ∧
      ∃ w, AllTcpStream.tls ⟨⟨"w", true⟩, ⟨7, ⟨[], []⟩⟩⟩ = .tls w ∧
        w.inner.fd = TcpStream.fd ⟨7, ⟨[.ready 0], []⟩⟩) :=
  connect_returns_stream_and_fresh_fd ⟨⟨⟨1⟩, true⟩⟩ ⟨"dom", ⟨⟨1⟩, true⟩⟩ ⟨⟩
    (fun _ => .ok ⟨7, ⟨[.ready 0], []⟩⟩) 1 "v" "u" "t" "dom2" "w"
    ⟨7, ⟨[.ready 0], []⟩⟩ ⟨7, ⟨[.ready 0], []⟩⟩ ⟨7, ⟨[.ready 0], []⟩⟩
    ⟨7, ⟨[.ready 0], []⟩⟩ ⟨7, ⟨[.ready 0], []⟩⟩
    ⟨⟨"v", true⟩, ⟨7, ⟨[], []⟩⟩⟩ ⟨⟨"dom", true⟩, ⟨7, ⟨[], []⟩⟩⟩
    (.tcp ⟨7, ⟨[.ready 0], []⟩⟩) (.tls ⟨⟨"dom", true⟩, ⟨7, ⟨[], []⟩⟩⟩)
    (.tls ⟨⟨"w", true⟩, ⟨7, ⟨[], []⟩⟩⟩) 7 7 7 7 7
    rfl rfl rfl rfl rfl rfl rfl rfl rfl rfl

/-- Lift a function over the success value of a poll, leaving suspension
and errors untouched. -/
def pollMapOk {α β : Type} (g : α → β) : Poll (Except IoError α) → Poll (Except IoError β)
  | .pending => .pending
  | .ready (.error e) => .ready (.error e)
  | .ready (.ok v) => .ready (.ok (g v))

/-- C7: `AllDomainConnector::connect` selects its strategy purely by the
configured variant — the equations hold uniformly in the address, so no
address or protocol data is ever inspected: the `Tcp` variant is exactly
the inner plain connect wrapped with `AllTcpStream::tcp`, and both TLS
variants are exactly the inner TLS connect wrapped with
`AllTcpStream::tls`, the inner connector's fd passing through unchanged
in every case. -/
theorem dispatch_purely_by_variant (dc : DefaultTcpDomainConnector)
    (cd : TlsDomainConnector) (ca : TlsAnonymousConnector) (net : Net)
    (fuel : Nat) (d : String) :
    AllDomainConnector.connect (.Tcp dc) net fuel d
        = pollMapOk (fun p => (AllTcpStream.tcp p.1, p.2)) (dc.connect net d) ∧
    AllDomainConnector.connect (.TlsDomain cd) net fuel d
        = pollMapOk (fun p => (AllTcpStream.tls p.1, p.2)) (cd.connect net fuel d) ∧
    AllDomainConnector.connect (.TlsAnonymous ca) net fuel d
        = pollMapOk (fun p => (AllTcpStream.tls p.1, p.2)) (ca.connect net fuel d) := by
  refine ⟨?_, ?_, ?_⟩
  · simp only [AllDomainConnector.connect]
    rcases hq : dc.connect net d with _ | (e | ⟨st, fd⟩) <;> simp [pollMapOk]
  · simp only [AllDomainConnector.connect]
    rcases hq : cd.connect net fuel d with _ | (e | ⟨st, fd⟩) <;> simp [pollMapOk]
  · simp only [AllDomainConnector.connect]
    rcases hq : ca.connect net fuel d with _ | (e | ⟨st, fd⟩) <;> simp [pollMapOk]

/-- C8: `TlsDomainConnector::connect(addr)` dials TCP at `addr` but hands
the stored configured `self.domain` — not `addr` — to the handshake as
the TLS target identity, while `TlsAnonymousConnector::connect(domain)`
uses its one argument both to dial and as the TLS target identity. -/
theorem tls_target_identity (cd : TlsDomainConnector) (ca : TlsAnonymousConnector)
    (net : Net) (fuel : Nat) (addr d : String) (tcp tcp2 : TcpStream)
    (s s2 : TlsStream) (fd fd2 : Int)
    (h1 : net addr = .ok tcp)
    (g1 : cd.connect net fuel addr = .ready (.ok (s, fd)))
    (h2 : net d = .ok tcp2)
    (g2 : ca.connect net fuel d = .ready (.ok (s2, fd2))) :
    (fd = tcp.as_raw_fd ∧ s.session.targetDomain = cd.domain) ∧
    (fd2 = tcp2.as_raw_fd ∧ s2.session.targetDomain = d) := by
  obtain ⟨e1, k1⟩ := domain_connect_ok h1 g1
  obtain ⟨e2, k2⟩ := anonymous_connect_ok h2 g2
  refine ⟨⟨e1, ?_⟩, ⟨e2, ?_⟩⟩
  · rw [(tls_connect_ok k1).1]
  · rw [(tls_connect_ok k2).1]

/-- Witness for C8: the domain connector configured for "dom" dialed at
"addr" establishes a session for "dom"; the anonymous connector dialed at
"anon" establishes a session for "anon". -/
theorem tls_target_identity_witness :
    ((7 : Int) = TcpStream.as_raw_fd ⟨7, ⟨[.ready 0], []⟩⟩ ∧
      Session.targetDomain (TlsStream.session ⟨⟨"dom", true⟩, ⟨7, ⟨[], []⟩⟩⟩)
        = TlsDomainConnector.domain ⟨"dom", ⟨⟨1⟩, true⟩⟩) ∧
    ((7 : Int) = TcpStream.as_raw_fd ⟨7, ⟨[.ready 0], []⟩⟩ ∧
      Session.targetDomain (TlsStream.session ⟨⟨"anon", true⟩, ⟨7, ⟨[], []⟩⟩⟩)
        = "anon") :=
  tls_target_identity ⟨"dom", ⟨⟨1⟩, true⟩⟩ ⟨⟨⟨1⟩, true⟩⟩
    (fun _ => .ok ⟨7, ⟨[.ready 0], []⟩⟩) 1 "addr" "anon"
    ⟨7, ⟨[.ready 0], []⟩⟩ ⟨7, ⟨[.ready 0], []⟩⟩
    ⟨⟨"dom", true⟩, ⟨7, ⟨[], []⟩⟩⟩ ⟨⟨"anon", true⟩, ⟨7, ⟨[], []⟩⟩⟩ 7 7
    rfl rfl rfl rfl

/-- C10: a default-constructed `AllDomainConnector` is
`AllDomainConnector::default_tcp()`, the plaintext `Tcp` variant wrapping
`DefaultTcpDomainConnector`; its connect is exactly the plain TCP dial —
no TLS handshake runs and the returned stream is the unencrypted one. -/
theorem default_connector_is_plain_tcp (net : Net) (fuel : Nat) (d : String) :
    AllDomainConnector.default = AllDomainConnector.default_tcp ∧
    AllDomainConnector.default_tcp = AllDomainConnector.Tcp ⟨⟩ ∧
    AllDomainConnector.connect AllDomainConnector.default net fuel d
      = (match net d with
         | .error code => .ready (.error (.os code))
         | .ok t => .ready (.ok (.tcp t, t.as_raw_fd))) := by
  refine ⟨rfl, rfl, ?_⟩
  simp only [AllDomainConnector.default, AllDomainConnector.default_tcp,
    AllDomainConnector.connect, DefaultTcpDomainConnector.connect]
  rcases hq : net d with e | t <;> rfl
